import Mathlib

/-!
Verification development for the MoenyPal expense tracker.

The SQLite-backed store (tables `expenses`, `tags`, `expense_tags`,
`settings`) is embedded as a pure `Store` value; each model-layer
operation (`src/models/*.py`) becomes a function `Store → ... → Store`.
Python `float` arithmetic on amounts is embedded as exact rational
arithmetic over `ℚ`; Python `int(...)` truncation and `round(...)`
half-to-even rounding are modelled explicitly.  `occurred_at` values are
the ISO strings the source stores (`"YYYY-MM-DDT00:00:00"`); SQL
comparisons and `substr` prefixes act on those strings, as in the source.
-/

namespace MoneyPal

/-- Python `int(q)`: truncation toward zero. -/
def pyInt (q : ℚ) : ℤ := if 0 ≤ q then ⌊q⌋ else ⌈q⌉

/-- Python `round(q)` (no digits): round half to even. -/
def pyRound (q : ℚ) : ℤ :=
  let f := ⌊q⌋
  let r := q - f
  if r < 1/2 then f
  else if 1/2 < r then f + 1
  else if f % 2 = 0 then f else f + 1

/-- Round half up, the rule the spec asserts for the write conversion. -/
def roundHalfUp (q : ℚ) : ℤ := ⌊q + 1/2⌋

/-- Round an exact rational to the nearest IEEE-754 binary64 value
(round to nearest, ties to even), as every Python float operation does
to its exact result.  The significand is 53 bits: the magnitude is
scaled into `[2^52, 2^53)`, rounded half-to-even to an integer, and
scaled back.  Overflow and subnormals are not modelled — every amount
this app handles is far inside the normal range. -/
def fl64 (q : ℚ) : ℚ :=
  if q = 0 then 0
  else
    let s := |q|
    let e : ℤ := Int.log 2 s - 52
    (if q < 0 then (-1 : ℚ) else 1) * pyRound (s / 2 ^ e) * 2 ^ e

/-- Major-units value redisplayed from stored cents: the Python float
division `amount_cents / 100.0` (exact quotient rounded to binary64). -/
def read_major (cents : ℤ) : ℚ := fl64 ((cents : ℚ) / 100)

/-! String primitives.  The Python string methods and SQLite's TEXT
operations are modelled structurally over `String.data` so that every
operation computes by structural recursion.  All strings this program
stores and compares (ISO dates, category keys, tag names, searches) are
ASCII, where these definitions agree with Python's `str.strip`,
`str.lower`/`str.casefold`, `str.split` and SQLite's byte-order
comparison, `substr` and `LOWER`. -/

/-- The whitespace characters Python's `str.strip()` removes (ASCII part). -/
def pyIsSpace (c : Char) : Bool :=
  c = ' ' || c = '\t' || c = '\n' || c = '\r' || c = Char.ofNat 11 || c = Char.ofNat 12

/-- Drop leading and trailing whitespace from a character list. -/
def stripChars (l : List Char) : List Char :=
  ((l.dropWhile pyIsSpace).reverse.dropWhile pyIsSpace).reverse

/-- Python `s.strip()`: drop leading and trailing whitespace. -/
def pyStrip (s : String) : String := ⟨stripChars s.data⟩

/-- Lower-case one ASCII character (identity beyond `A`-`Z`). -/
def asciiLowerChar (c : Char) : Char :=
  if 'A' ≤ c && c ≤ 'Z' then Char.ofNat (c.toNat + 32) else c

/-- Python `s.lower()` / `s.casefold()` and SQLite `LOWER(s)` on the ASCII
strings this app handles. -/
def pyLower (s : String) : String := ⟨s.data.map asciiLowerChar⟩

/-- Byte-order comparison of character lists (SQLite's TEXT collation,
restricted to the ASCII strings this app stores). -/
def charListLe : List Char → List Char → Bool
  | [], _ => true
  | _ :: _, [] => false
  | a :: as, b :: bs =>
      if a.toNat < b.toNat then true
      else if b.toNat < a.toNat then false
      else charListLe as bs

/-- SQLite `a <= b` on TEXT values. -/
def strLeB (a b : String) : Bool := charListLe a.data b.data

/-- SQLite `a < b` on TEXT values. -/
def strLtB (a b : String) : Bool := !(strLeB b a)

/-- Does `hay` begin with `needle`? -/
def beginsWith : List Char → List Char → Bool
  | _, [] => true
  | [], _ :: _ => false
  | c :: cs, d :: ds => c = d && beginsWith cs ds

/-- Substring occurrence over character lists. -/
def containsSubAux : List Char → List Char → Bool
  | [], needle => needle.isEmpty
  | hay@(_ :: rest), needle => beginsWith hay needle || containsSubAux rest needle

/-- SQL `hay LIKE '%needle%'` for a needle free of LIKE metacharacters:
plain substring occurrence. -/
def likeContains (hay needle : String) : Bool := containsSubAux hay.data needle.data

/-- SQL `substr(s, 1, 7)`: the year-month prefix of a stored ISO date. -/
def substr7 (s : String) : String := ⟨s.data.take 7⟩

/-- Python `s.split(",")`, accumulating the current piece in reverse. -/
def splitCommaAux : List Char → List Char → List String
  | [], acc => [⟨acc.reverse⟩]
  | c :: rest, acc =>
      if c = ',' then (⟨acc.reverse⟩ : String) :: splitCommaAux rest []
      else splitCommaAux rest (c :: acc)

/-- Python `custom_tags.split(",")`. -/
def pySplitComma (s : String) : List String := splitCommaAux s.data []

/-- Row of the `expenses` table. -/
structure Expense where
  id : Nat
  amount_cents : ℤ
  currency : String
  category : String
  note : String
  occurred_at : String
  created_at : String
deriving DecidableEq, Repr

/-- Row of the `tags` table (`name` has a binary-collation UNIQUE constraint). -/
structure TagRow where
  id : Nat
  name : String
deriving DecidableEq, Repr

/-- The singleton `settings` row (`id = 1`). -/
structure SettingsRow where
  income_1_cents : ℤ
  income_2_cents : ℤ
  saving_goal_pct : ℚ
  budget_fun_cents : ℤ
  budget_groceris_cents : ℤ
  budget_travel_cents : ℤ
  budget_home_exp_cents : ℤ
  budget_misc_cents : ℤ
deriving DecidableEq, Repr

/-- The all-zero settings row `init_db` seeds and `reset_all_data` restores. -/
def zero_settings : SettingsRow := ⟨0, 0, 0, 0, 0, 0, 0, 0⟩

/-- The whole SQLite database.  `next_expense_id` / `next_tag_id` model the
AUTOINCREMENT sequences (which plain `DELETE` does not rewind). -/
structure Store where
  expenses : List Expense
  tags : List TagRow
  expense_tags : List (Nat × Nat)
  settings : SettingsRow
  next_expense_id : Nat
  next_tag_id : Nat
deriving DecidableEq, Repr

/-- The freshly initialised database produced by `init_db`. -/
def init_store : Store := ⟨[], [], [], zero_settings, 1, 1⟩

/-- `models/tags.py::normalize_tags`: trim, drop empties, deduplicate by
casefolded key keeping the first-seen casing.  The accumulator pairs the
`seen` set (as a list of keys) with the output list. -/
def normalize_step (acc : List String × List String) (v : String) :
    List String × List String :=
  let name := pyStrip v
  if name = "" then acc
  else
    let key := pyLower name
    if key ∈ acc.1 then acc else (key :: acc.1, acc.2 ++ [name])

def normalize_tags (values : List String) : List String :=
  (values.foldl normalize_step ([], [])).2

/-- The `INSERT OR IGNORE INTO tags (name) VALUES (:name)` loop of
`get_or_create_tag_ids`: a name is inserted unless a row with the exact
same name exists (the UNIQUE constraint compares raw strings). -/
def tags_insert_or_ignore (st : Store) : List String → Store
  | [] => st
  | n :: rest =>
      let st' :=
        if st.tags.any (fun t => t.name = n) then st
        else { st with tags := st.tags ++ [⟨st.next_tag_id, n⟩],
                        next_tag_id := st.next_tag_id + 1 }
      tags_insert_or_ignore st' rest

/-- `models/tags.py::get_or_create_tag_ids`: normalize, insert-or-ignore
each name, then reselect `id FROM tags WHERE name IN names` (exact
match, rowid order). -/
def get_or_create_tag_ids (st : Store) (names0 : List String) : Store × List Nat :=
  let names := normalize_tags names0
  if names = [] then (st, [])
  else
    let st' := tags_insert_or_ignore st names
    (st', (st'.tags.filter (fun t => decide (t.name ∈ names))).map TagRow.id)

/-- The `INSERT OR IGNORE INTO expense_tags` loop of `set_expense_tags`
(composite primary key, so an existing pair is ignored). -/
def expense_tags_insert_or_ignore (st : Store) (expense_id : Nat) : List Nat → Store
  | [] => st
  | tid :: rest =>
      let st' :=
        if (expense_id, tid) ∈ st.expense_tags then st
        else { st with expense_tags := st.expense_tags ++ [(expense_id, tid)] }
      expense_tags_insert_or_ignore st' expense_id rest

/-- `models/tags.py::set_expense_tags`: delete the expense's association
rows, then (if any normalized tags remain) get-or-create the tag ids and
re-insert the pairs. -/
def set_expense_tags (st : Store) (expense_id : Nat) (tags0 : List String) : Store :=
  let tags := normalize_tags tags0
  let st1 := { st with expense_tags := st.expense_tags.filter (fun p => p.1 ≠ expense_id) }
  if tags = [] then st1
  else
    let res := get_or_create_tag_ids st1 tags
    expense_tags_insert_or_ignore res.1 expense_id res.2

/-- `models/expense.py::insert_expense`.  `occurred_on` is the ISO date
string; the source stores `datetime.combine(occurred_on, 00:00:00)`,
i.e. `occurred_on ++ "T00:00:00"`.  `now` stands for
`datetime.now().isoformat()`.  The amount is stored as `int(amount*100)`:
`amount` is the exact value of the binary64 float the caller passes, the
product with 100 is computed exactly and rounded to binary64 (IEEE
multiplication), and `int()` truncates the result toward zero. -/
def insert_expense (st : Store) (item_name : String) (amount : ℚ) (category : String)
    (occurred_on : String) (tags : List String) (now : String) : Store :=
  let occurred_at := occurred_on ++ "T00:00:00"
  let e : Expense :=
    { id := st.next_expense_id
      amount_cents := pyInt (fl64 (amount * 100))
      currency := "USD"
      category := category
      note := item_name
      occurred_at := occurred_at
      created_at := now }
  let st' := { st with expenses := st.expenses ++ [e],
                       next_expense_id := st.next_expense_id + 1 }
  set_expense_tags st' e.id tags

/-- `models/expense.py::update_expense`: an UPDATE matching on `id`
(touching nothing when no row matches), then a full tag-set replace.
The amount conversion is `int(amount*100)` as in `insert_expense`:
binary64 rounding of the exact product, then truncation toward zero. -/
def update_expense (st : Store) (expense_id : Nat) (item_name : String) (amount : ℚ)
    (category : String) (occurred_on : String) (tags : List String) : Store :=
  let occurred_at := occurred_on ++ "T00:00:00"
  let st' := { st with expenses := st.expenses.map (fun e =>
    if e.id = expense_id then
      { e with amount_cents := pyInt (fl64 (amount * 100))
               category := category
               note := pyStrip item_name
               occurred_at := occurred_at }
    else e) }
  set_expense_tags st' expense_id tags

/-- `models/expense.py::delete_expense` (foreign keys are off in SQLite by
default and the source never enables them, so association rows stay). -/
def delete_expense (st : Store) (expense_id : Nat) : Store :=
  { st with expenses := st.expenses.filter (fun e => e.id ≠ expense_id) }

/-- `models/settings.py::get_settings` (the row always exists after
`init_db`, and the absent-row default equals the zero row anyway). -/
def get_settings (st : Store) : SettingsRow := st.settings

/-- `models/settings.py::save_settings`: unconditional full overwrite of
the singleton, converting each major-units float by `int(round(x*100))`. -/
def save_settings (st : Store) (income_1 income_2 saving_goal_pct budget_fun
    budget_groceris budget_travel budget_home_exp budget_misc : ℚ) : Store :=
  { st with settings :=
    { income_1_cents := pyRound (income_1 * 100)
      income_2_cents := pyRound (income_2 * 100)
      saving_goal_pct := saving_goal_pct
      budget_fun_cents := pyRound (budget_fun * 100)
      budget_groceris_cents := pyRound (budget_groceris * 100)
      budget_travel_cents := pyRound (budget_travel * 100)
      budget_home_exp_cents := pyRound (budget_home_exp * 100)
      budget_misc_cents := pyRound (budget_misc * 100) } }

/-- `models/database.py::reset_all_data`: one transaction deleting all
`expense_tags`, `tags`, `expenses` rows and zeroing the settings row. -/
def reset_all_data (st : Store) : Store :=
  { st with expense_tags := [], tags := [], expenses := [], settings := zero_settings }

/-! ### The settings view's widget state (`views/settings.py`)

`st.session_state` keys used by the budget recalculation callbacks.  The
source reads each key with `float(st.session_state.get(k, 0.0) or 0.0)`;
on this embedding the keys always hold rational values, over which that
read is the identity. -/

structure SessionState where
  max_budget : ℚ
  income_1 : ℚ
  income_2 : ℚ
  saving_goal_pct : ℚ
  budget_fun : ℚ
  budget_groceris : ℚ
  budget_travel : ℚ
  budget_home_exp : ℚ
  budget_misc : ℚ
deriving DecidableEq, Repr

/-- `views/settings.py::_recalc_misc_budget`: misc is the clamped remainder
of `_max_budget` after the four user-set categories. -/
def recalc_misc_budget (s : SessionState) : SessionState :=
  let total_without_misc := s.budget_fun + s.budget_groceris + s.budget_travel + s.budget_home_exp
  { s with budget_misc := max (s.max_budget - total_without_misc) 0 }

/-- `views/settings.py::_recalc_budget_from_goal`: recompute the spending
budget from incomes and the savings-goal percentage, clamp at 0, store it
in `_max_budget` and rebalance misc. -/
def recalc_budget_from_goal (s : SessionState) : SessionState :=
  let total_income := s.income_1 + s.income_2
  let spending_budget := total_income * (1 - s.saving_goal_pct / 100)
  recalc_misc_budget { s with max_budget := max spending_budget 0 }

/-- The over-allocation test of `views/settings.py::render_settings`
(line 186): the four user-set categories exceed
`max(spending_budget, 0)`.  When it holds the view shows the error banner
"Category allocations exceed your spending budget." -/
def settings_allocation_invalid (s : SessionState) : Bool :=
  let spending_budget := (s.income_1 + s.income_2) * (1 - s.saving_goal_pct / 100)
  let max_budget := max spending_budget 0
  let allocated_without_misc :=
    s.budget_fun + s.budget_groceris + s.budget_travel + s.budget_home_exp
  decide (max_budget < allocated_without_misc)

/-- The Save button of `views/settings.py::render_settings` (lines
210-221): it calls `save_settings` on the current widget values with no
condition attached. -/
def render_settings_save (st : Store) (s : SessionState) : Store :=
  save_settings st s.income_1 s.income_2 s.saving_goal_pct s.budget_fun
    s.budget_groceris s.budget_travel s.budget_home_exp s.budget_misc

/-- Outcome of submitting the add-expense form. -/
inductive AddOutcome where
  | validation_error : String → AddOutcome
  | saved : AddOutcome
deriving DecidableEq, Repr

/-- The submit branch of `views/add.py::render_add` (lines 68-86): reject
an item name that strips to empty or a non-positive amount before
touching the store; otherwise merge the selected and comma-separated
custom tags and call `insert_expense`. -/
def render_add_submit (st : Store) (item_name : String) (amount : ℚ) (category : String)
    (occurred_on : String) (tags_selected : List String) (custom_tags : String)
    (now : String) : AddOutcome × Store :=
  if pyStrip item_name = "" then
    (.validation_error "Please enter an item name.", st)
  else if amount ≤ 0 then
    (.validation_error "Please enter an amount greater than 0.", st)
  else
    let final_tags := tags_selected ++
      (if pyStrip custom_tags ≠ "" then
        ((pySplitComma custom_tags).map pyStrip).filter (fun t => t ≠ "")
      else [])
    (.saved, insert_expense st item_name amount category occurred_on
      (normalize_tags final_tags) now)

/-! ### Ledger reads and aggregation (`models/expense.py`, `models/analytics.py`)

The optional `start_date` / `end_date` arguments arrive here as the ISO
datetime strings the Python wrappers build (`start` at midnight,
`end + 1 day` at midnight) before binding them into the SQL, which
compares them to `occurred_at` as strings. -/

/-- The `ORDER BY e.occurred_at DESC, e.id DESC` relation of
`list_transactions`. -/
def tx_order (a b : Expense) : Prop :=
  strLtB b.occurred_at a.occurred_at = true
  ∨ (a.occurred_at = b.occurred_at ∧ b.id ≤ a.id)

instance : DecidableRel tx_order := fun a b => by
  unfold tx_order; infer_instance

/-- An output row of `list_transactions` (`tags` is the
`GROUP_CONCAT(t.name, ', ')` string, `''` when no joined tag matched). -/
structure TxRow where
  id : Nat
  occurred_at : String
  note : String
  category : String
  amount_cents : ℤ
  tags : String
deriving DecidableEq, Repr

/-- `models/expense.py::list_transactions`: LEFT JOIN of expenses with
their tags, a WHERE over the joined rows (search LIKE against note,
category or the joined tag name; date range; exact case-insensitive tag
match), GROUP BY expense, ORDER BY `occurred_at` DESC then `id` DESC,
LIMIT. -/
def list_transactions (st : Store) (search : String) (limit : Nat)
    (start_iso end_iso : Option String) (tag : Option String) : List TxRow :=
  let q := pyLower (pyStrip search)
  let tag_value := pyStrip (tag.getD "")
  let joined : List (Expense × Option TagRow) :=
    st.expenses.flatMap (fun e =>
      let ts := st.tags.filter (fun t => decide ((e.id, t.id) ∈ st.expense_tags))
      if ts = [] then [(e, none)] else ts.map (fun t => (e, some t)))
  let rows := joined.filter (fun r =>
    (q = "" || likeContains (pyLower r.1.note) q || likeContains (pyLower r.1.category) q
      || likeContains (pyLower ((r.2.map TagRow.name).getD "")) q)
    && (match start_iso with | none => true | some s => strLeB s r.1.occurred_at)
    && (match end_iso with | none => true | some en => strLtB r.1.occurred_at en)
    && (tag_value = "" || pyLower ((r.2.map TagRow.name).getD "") = pyLower tag_value))
  let ges := (rows.map Prod.fst).dedup
  let sorted := List.insertionSort tx_order ges
  (sorted.take limit).map (fun e =>
    { id := e.id
      occurred_at := e.occurred_at
      note := e.note
      category := e.category
      amount_cents := e.amount_cents
      tags := String.intercalate ", "
        ((rows.filter (fun r => r.1.id = e.id)).filterMap (fun r => r.2.map TagRow.name)) })

/-- `ORDER BY ym DESC`: the sort relation putting larger keys first. -/
def ym_ge (a b : String) : Prop := strLeB b a = true

instance : DecidableRel ym_ge := fun a b =>
  inferInstanceAs (Decidable (strLeB b a = true))

/-- The WHERE clause `monthly_totals` builds: optional `occurred_at`
range (the Python wrapper passes `start` at midnight and `end + 1 day`
at midnight as ISO strings) and an optional LIKE search against note or
category. -/
def monthly_filter (start_iso end_iso : Option String) (search : String)
    (e : Expense) : Bool :=
  (match start_iso with | none => true | some s => strLeB s e.occurred_at)
  && (match end_iso with | none => true | some en => strLtB e.occurred_at en)
  && (search = "" || likeContains (pyLower e.note) (pyLower search)
      || likeContains (pyLower e.category) (pyLower search))

/-- `models/analytics.py::monthly_totals`: filter, group by the 7-char
year-month prefix of `occurred_at`, `ORDER BY ym DESC LIMIT limit`, then
reverse into ascending order. -/
def monthly_totals (st : Store) (limit : Nat) (start_iso end_iso : Option String)
    (search : String) : List (String × ℤ) :=
  let es := st.expenses.filter (monthly_filter start_iso end_iso search)
  let yms := (es.map (fun e => substr7 e.occurred_at)).dedup
  let sorted := List.insertionSort ym_ge yms
  ((sorted.take limit).map (fun k =>
    (k, ((es.filter (fun e => substr7 e.occurred_at = k)).map Expense.amount_cents).sum))).reverse

/-- An output row of `monthly_savings_rate`. -/
structure SavingsRow where
  ym : String
  savings_rate : ℚ
  spent_cents : ℤ
  income_cents : ℤ
deriving DecidableEq, Repr

/-- `models/analytics.py::monthly_savings_rate`: read the incomes from the
settings row; bail out with `[]` when their sum is not positive;
otherwise pair each of the most recent `limit` months having data with
`(income - spent)/income * 100`, ascending. -/
def monthly_savings_rate (st : Store) (limit : Nat) : List SavingsRow :=
  let total_income_cents := st.settings.income_1_cents + st.settings.income_2_cents
  if total_income_cents ≤ 0 then []
  else
    let yms := (st.expenses.map (fun e => substr7 e.occurred_at)).dedup
    let sorted := List.insertionSort ym_ge yms
    ((sorted.take limit).map (fun k =>
      let spent_cents :=
        ((st.expenses.filter (fun e => substr7 e.occurred_at = k)).map Expense.amount_cents).sum
      { ym := k
        savings_rate :=
          if 0 < total_income_cents then
            ((total_income_cents - spent_cents : ℤ) : ℚ) / (total_income_cents : ℚ) * 100
          else 0
        spent_cents := spent_cents
        income_cents := total_income_cents })).reverse

/-! ## Helper lemmas -/

theorem pyInt_intCast (n : ℤ) : pyInt (n : ℚ) = n := by
  unfold pyInt
  rcases le_or_lt 0 (n : ℚ) with h | h
  · rw [if_pos h, Int.floor_intCast]
  · rw [if_neg (not_le.mpr h), Int.ceil_intCast]

theorem pyRound_intCast (n : ℤ) : pyRound (n : ℚ) = n := by
  unfold pyRound
  norm_num [Int.floor_intCast]

theorem pyRound_eval_lt {x : ℚ} {f : ℤ} (h1 : (f : ℚ) ≤ x) (h2 : x < f + 1)
    (h3 : x - f < 1/2) : pyRound x = f := by
  unfold pyRound
  rw [Int.floor_eq_iff.mpr ⟨h1, h2⟩, if_pos h3]

theorem pyRound_eval_gt {x : ℚ} {f : ℤ} (h1 : (f : ℚ) ≤ x) (h2 : x < f + 1)
    (h3 : 1/2 < x - f) : pyRound x = f + 1 := by
  unfold pyRound
  rw [Int.floor_eq_iff.mpr ⟨h1, h2⟩, if_neg (not_lt.mpr h3.le), if_pos h3]

theorem int_log_eq_of_bounds {r : ℚ} {k : ℤ} (hr : 0 < r)
    (h1 : (2:ℚ) ^ k ≤ r) (h2 : r < (2:ℚ) ^ (k + 1)) : Int.log 2 r = k := by
  have hb : (1:ℕ) < 2 := by norm_num
  have ha : k ≤ Int.log 2 r := by
    rw [← Int.zpow_le_iff_le_log hb hr]
    exact_mod_cast h1
  have hc : Int.log 2 r < k + 1 := by
    rw [← Int.lt_zpow_iff_log_lt hb hr]
    exact_mod_cast h2
  omega

/-- Evaluate `fl64` at a positive rational: supply the binade exponent
`k` with `2^k ≤ q < 2^(k+1)` and the value of the rounded, rescaled
significand. -/
theorem fl64_eval {q v : ℚ} {k : ℤ} (hq : 0 < q)
    (h1 : (2:ℚ) ^ k ≤ q) (h2 : q < (2:ℚ) ^ (k + 1))
    (hv : (pyRound (q / 2 ^ (k - 52)) : ℚ) * 2 ^ (k - 52) = v) :
    fl64 q = v := by
  unfold fl64
  rw [if_neg (ne_of_gt hq), abs_of_pos hq, if_neg (not_lt.mpr hq.le)]
  show (1 : ℚ) * (pyRound (q / 2 ^ (Int.log 2 q - 52)) : ℚ) * 2 ^ (Int.log 2 q - 52) = v
  rw [int_log_eq_of_bounds hq h1 h2, one_mul, hv]

/-! The binary64 values and products behind the C4 amounts, each checked
against the IEEE-754 round-to-nearest-even rule (`0.005`, `12.34` and
`8.20` are the decimals; the fractions are their nearest doubles). -/

theorem fl64_half_cent : fl64 (1/200) = 5764607523034235 / 2 ^ 60 := by
  apply fl64_eval (k := -8) (by norm_num) (by norm_num) (by norm_num)
  rw [show ((1/200 : ℚ) / 2 ^ ((-8:ℤ) - 52)) = 144115188075855872/25 by norm_num,
    pyRound_eval_gt (f := 5764607523034234) (by norm_num) (by norm_num) (by norm_num)]
  norm_num

theorem fl64_half_cent_prod :
    fl64 ((5764607523034235 / 2 ^ 60 : ℚ) * 100) = 1/2 := by
  rw [show ((5764607523034235 / 2 ^ 60 : ℚ) * 100) = 144115188075855875 / 2 ^ 58
    by norm_num]
  apply fl64_eval (k := -1) (by norm_num) (by norm_num) (by norm_num)
  rw [show ((144115188075855875 / 2 ^ 58 : ℚ) / 2 ^ ((-1:ℤ) - 52))
      = 144115188075855875/32 by norm_num,
    pyRound_eval_lt (f := 4503599627370496) (by norm_num) (by norm_num) (by norm_num)]
  norm_num

theorem fl64_d1234 : fl64 (1234/100) = 3473401212609495 / 2 ^ 48 := by
  apply fl64_eval (k := 3) (by norm_num) (by norm_num) (by norm_num)
  rw [show ((1234/100 : ℚ) / 2 ^ ((3:ℤ) - 52)) = 173670060630474752/25 by norm_num,
    pyRound_eval_lt (f := 6946802425218990) (by norm_num) (by norm_num) (by norm_num)]
  norm_num

theorem fl64_d1234_prod :
    fl64 ((3473401212609495 / 2 ^ 48 : ℚ) * 100) = 1234 := by
  rw [show ((3473401212609495 / 2 ^ 48 : ℚ) * 100) = 86835030315237375 / 2 ^ 46
    by norm_num]
  apply fl64_eval (k := 10) (by norm_num) (by norm_num) (by norm_num)
  rw [show ((86835030315237375 / 2 ^ 46 : ℚ) / 2 ^ ((10:ℤ) - 52))
      = 86835030315237375/16 by norm_num,
    pyRound_eval_gt (f := 5427189394702335) (by norm_num) (by norm_num) (by norm_num)]
  norm_num

theorem fl64_d82 : fl64 (82/10) = 2308094809027379 / 2 ^ 48 := by
  apply fl64_eval (k := 3) (by norm_num) (by norm_num) (by norm_num)
  rw [show ((82/10 : ℚ) / 2 ^ ((3:ℤ) - 52)) = 23080948090273792/5 by norm_num,
    pyRound_eval_lt (f := 4616189618054758) (by norm_num) (by norm_num) (by norm_num)]
  norm_num

theorem fl64_d82_prod :
    fl64 ((2308094809027379 / 2 ^ 48 : ℚ) * 100) = 7212796278210559 / 2 ^ 43 := by
  rw [show ((2308094809027379 / 2 ^ 48 : ℚ) * 100) = 57702370225684475 / 2 ^ 46
    by norm_num]
  apply fl64_eval (k := 9) (by norm_num) (by norm_num) (by norm_num)
  rw [show ((57702370225684475 / 2 ^ 46 : ℚ) / 2 ^ ((9:ℤ) - 52))
      = 57702370225684475/8 by norm_num,
    pyRound_eval_lt (f := 7212796278210559) (by norm_num) (by norm_num) (by norm_num)]
  norm_num

theorem tags_insert_or_ignore_expenses (names : List String) (st : Store) :
    (tags_insert_or_ignore st names).expenses = st.expenses := by
  induction names generalizing st with
  | nil => rfl
  | cons n rest ih =>
      unfold tags_insert_or_ignore
      split <;> simp [ih]

theorem tags_insert_or_ignore_settings (names : List String) (st : Store) :
    (tags_insert_or_ignore st names).settings = st.settings := by
  induction names generalizing st with
  | nil => rfl
  | cons n rest ih =>
      unfold tags_insert_or_ignore
      split <;> simp [ih]

theorem expense_tags_insert_or_ignore_expenses (ids : List Nat) (st : Store) (eid : Nat) :
    (expense_tags_insert_or_ignore st eid ids).expenses = st.expenses := by
  induction ids generalizing st with
  | nil => rfl
  | cons tid rest ih =>
      unfold expense_tags_insert_or_ignore
      split <;> simp [ih]

theorem expense_tags_insert_or_ignore_tags (ids : List Nat) (st : Store) (eid : Nat) :
    (expense_tags_insert_or_ignore st eid ids).tags = st.tags := by
  induction ids generalizing st with
  | nil => rfl
  | cons tid rest ih =>
      unfold expense_tags_insert_or_ignore
      split <;> simp [ih]

theorem get_or_create_tag_ids_expenses (st : Store) (names0 : List String) :
    (get_or_create_tag_ids st names0).1.expenses = st.expenses := by
  unfold get_or_create_tag_ids
  by_cases h : normalize_tags names0 = []
  · simp [h]
  · simp [h, tags_insert_or_ignore_expenses]

theorem set_expense_tags_expenses (st : Store) (eid : Nat) (tags0 : List String) :
    (set_expense_tags st eid tags0).expenses = st.expenses := by
  unfold set_expense_tags
  by_cases h : normalize_tags tags0 = []
  · simp [h]
  · simp [h, expense_tags_insert_or_ignore_expenses, get_or_create_tag_ids_expenses]

theorem char_eq_of_toNat_eq {a b : Char} (h : a.toNat = b.toNat) : a = b := by
  apply Char.ext
  apply UInt32.eq_of_toBitVec_eq
  apply BitVec.eq_of_toNat_eq
  simpa [Char.toNat, UInt32.toNat] using h

theorem charListLe_total : ∀ x y : List Char,
    charListLe x y = true ∨ charListLe y x = true
  | [], _ => Or.inl rfl
  | _ :: _, [] => Or.inr rfl
  | a :: as, b :: bs => by
      unfold charListLe
      rcases Nat.lt_trichotomy a.toNat b.toNat with h | h | h
      · left; rw [if_pos h]
      · rw [if_neg (by omega), if_neg (by omega), if_neg (by omega), if_neg (by omega)]
        exact charListLe_total as bs
      · right; rw [if_pos h]

theorem charListLe_trans : ∀ x y z : List Char,
    charListLe x y = true → charListLe y z = true → charListLe x z = true
  | [], _, _ => fun _ _ => rfl
  | _ :: _, [], _ => fun h _ => by simp [charListLe] at h
  | _ :: _, _ :: _, [] => fun _ h => by simp [charListLe] at h
  | a :: as, b :: bs, c :: cs => fun h1 h2 => by
      unfold charListLe at h1 h2 ⊢
      rcases Nat.lt_trichotomy a.toNat c.toNat with hac | hac | hac
      · rw [if_pos hac]
      · rw [if_neg (by omega), if_neg (by omega)]
        by_cases hab : a.toNat < b.toNat
        · rw [if_neg (by omega), if_pos (by omega)] at h2
          exact absurd h2 (by simp)
        · by_cases hba : b.toNat < a.toNat
          · rw [if_neg hab, if_pos hba] at h1
            exact absurd h1 (by simp)
          · rw [if_neg hab, if_neg hba] at h1
            rw [if_neg (by omega), if_neg (by omega)] at h2
            exact charListLe_trans as bs cs h1 h2
      · exfalso
        by_cases hab : a.toNat < b.toNat
        · rw [if_neg (by omega), if_pos (by omega)] at h2
          simp at h2
        · by_cases hba : b.toNat < a.toNat
          · rw [if_neg hab, if_pos hba] at h1
            simp at h1
          · rw [if_neg (by omega), if_pos (by omega)] at h2
            simp at h2

theorem charListLe_antisymm : ∀ x y : List Char,
    charListLe x y = true → charListLe y x = true → x = y
  | [], [] => fun _ _ => rfl
  | [], _ :: _ => fun _ h => by simp [charListLe] at h
  | _ :: _, [] => fun h _ => by simp [charListLe] at h
  | a :: as, b :: bs => fun h1 h2 => by
      unfold charListLe at h1 h2
      by_cases hab : a.toNat < b.toNat
      · rw [if_neg (by omega), if_pos (by omega)] at h2
        simp at h2
      · by_cases hba : b.toNat < a.toNat
        · rw [if_neg hab, if_pos hba] at h1
          simp at h1
        · rw [if_neg hab, if_neg hba] at h1
          rw [if_neg (by omega), if_neg (by omega)] at h2
          rw [char_eq_of_toNat_eq (by omega : a.toNat = b.toNat),
            charListLe_antisymm as bs h1 h2]

theorem strLeB_antisymm {a b : String} (h1 : strLeB a b = true)
    (h2 : strLeB b a = true) : a = b :=
  String.ext (charListLe_antisymm a.data b.data h1 h2)

theorem strLtB_of_le_of_ne {a b : String} (hle : strLeB a b = true) (hne : a ≠ b) :
    strLtB a b = true := by
  unfold strLtB
  cases h : strLeB b a with
  | false => rfl
  | true => exact absurd (strLeB_antisymm hle h) hne

instance : IsTotal String ym_ge :=
  ⟨fun a b => by
    unfold ym_ge strLeB
    rcases charListLe_total b.data a.data with h | h
    · exact Or.inl h
    · exact Or.inr h⟩

instance : IsTrans String ym_ge :=
  ⟨fun a b c h1 h2 => by
    unfold ym_ge strLeB at h1 h2 ⊢
    exact charListLe_trans c.data b.data a.data h2 h1⟩

/-! Idempotence of `pyStrip` (needed because the source normalizes a tag
list once in `set_expense_tags` and again inside `get_or_create_tag_ids`). -/

theorem dropWhile_dropWhile {α : Type} (p : α → Bool) (l : List α) :
    (l.dropWhile p).dropWhile p = l.dropWhile p := by
  induction l with
  | nil => rfl
  | cons a l ih =>
      cases hp : p a with
      | true => simp [List.dropWhile_cons, hp, ih]
      | false => simp [List.dropWhile_cons, hp]

theorem head?_dropWhile_false {α : Type} (p : α → Bool) (l : List α) (a : α)
    (h : (l.dropWhile p).head? = some a) : p a = false := by
  induction l with
  | nil => simp at h
  | cons b l ih =>
      rw [List.dropWhile_cons] at h
      by_cases hp : p b
      · rw [if_pos hp] at h
        exact ih h
      · rw [if_neg hp] at h
        simp only [List.head?_cons, Option.some.injEq] at h
        subst h
        exact Bool.eq_false_iff.mpr hp

theorem dropWhile_eq_self_of_head? {α : Type} (p : α → Bool) (l : List α)
    (h : ∀ a, l.head? = some a → p a = false) : l.dropWhile p = l := by
  cases l with
  | nil => rfl
  | cons b l =>
      have hb := h b rfl
      rw [List.dropWhile_cons, if_neg (by simp [hb])]

theorem getLast?_of_suffix {α : Type} {l₁ l₂ : List α} (h : l₁ <:+ l₂) (hne : l₁ ≠ []) :
    l₁.getLast? = l₂.getLast? := by
  obtain ⟨t, rfl⟩ := h
  rw [List.getLast?_append_of_ne_nil _ hne]

theorem stripChars_idem (l : List Char) : stripChars (stripChars l) = stripChars l := by
  unfold stripChars
  have hstep1 : ((l.dropWhile pyIsSpace).reverse.dropWhile pyIsSpace).reverse.dropWhile
      pyIsSpace = ((l.dropWhile pyIsSpace).reverse.dropWhile pyIsSpace).reverse := by
    apply dropWhile_eq_self_of_head?
    intro a ha
    rw [List.head?_reverse] at ha
    rcases eq_or_ne ((l.dropWhile pyIsSpace).reverse.dropWhile pyIsSpace) [] with h2 | h2
    · rw [h2] at ha
      simp at ha
    · rw [getLast?_of_suffix (List.dropWhile_suffix _) h2, List.getLast?_reverse] at ha
      exact head?_dropWhile_false _ _ _ ha
  rw [hstep1, List.reverse_reverse, dropWhile_dropWhile]

theorem pyStrip_idem (s : String) : pyStrip (pyStrip s) = pyStrip s :=
  congrArg String.mk (stripChars_idem s.data)

/-! Invariants of `normalize_tags`. -/

theorem normalize_fold_inv (values : List String) :
    ∀ seen out : List String,
    (∀ x ∈ out, pyStrip x = x ∧ x ≠ "" ∧ pyLower x ∈ seen) →
    out.Pairwise (fun a b => pyLower a ≠ pyLower b) →
    (∀ x ∈ (values.foldl normalize_step (seen, out)).2,
        pyStrip x = x ∧ x ≠ "" ∧ pyLower x ∈ (values.foldl normalize_step (seen, out)).1)
    ∧ (values.foldl normalize_step (seen, out)).2.Pairwise
        (fun a b => pyLower a ≠ pyLower b) := by
  induction values with
  | nil => exact fun seen out h1 h2 => ⟨h1, h2⟩
  | cons v rest ih =>
      intro seen out h1 h2
      rw [List.foldl_cons]
      by_cases hname : pyStrip v = ""
      · have hstep : normalize_step (seen, out) v = (seen, out) := by
          unfold normalize_step
          rw [if_pos hname]
        rw [hstep]
        exact ih seen out h1 h2
      · by_cases hkey : pyLower (pyStrip v) ∈ seen
        · have hstep : normalize_step (seen, out) v = (seen, out) := by
            unfold normalize_step
            rw [if_neg hname, if_pos hkey]
          rw [hstep]
          exact ih seen out h1 h2
        · have hstep : normalize_step (seen, out) v
              = (pyLower (pyStrip v) :: seen, out ++ [pyStrip v]) := by
            unfold normalize_step
            rw [if_neg hname, if_neg hkey]
          rw [hstep]
          apply ih
          · intro x hx
            rcases List.mem_append.mp hx with hx | hx
            · obtain ⟨ha, hb, hc⟩ := h1 x hx
              exact ⟨ha, hb, List.mem_cons_of_mem _ hc⟩
            · rw [List.mem_singleton] at hx
              subst hx
              exact ⟨pyStrip_idem v, hname, List.mem_cons_self _ _⟩
          · rw [List.pairwise_append]
            refine ⟨h2, List.pairwise_singleton _ _, ?_⟩
            intro a ha b hb
            rw [List.mem_singleton] at hb
            subst hb
            intro hcontra
            exact hkey (hcontra ▸ (h1 a ha).2.2)

theorem normalize_tags_mem_spec (l : List String) :
    ∀ x ∈ normalize_tags l, pyStrip x = x ∧ x ≠ "" := by
  intro x hx
  have h := normalize_fold_inv l [] [] (by simp) List.Pairwise.nil
  exact ⟨(h.1 x hx).1, (h.1 x hx).2.1⟩

theorem normalize_tags_pairwise_key (l : List String) :
    (normalize_tags l).Pairwise (fun a b => pyLower a ≠ pyLower b) :=
  (normalize_fold_inv l [] [] (by simp) List.Pairwise.nil).2

theorem normalize_fold_fixed : ∀ (t seen out : List String),
    (∀ x ∈ t, pyStrip x = x ∧ x ≠ "" ∧ pyLower x ∉ seen) →
    t.Pairwise (fun a b => pyLower a ≠ pyLower b) →
    (t.foldl normalize_step (seen, out)).2 = out ++ t
  | [], _, out, _, _ => by simp
  | v :: rest, seen, out, h1, h2 => by
      obtain ⟨ha, hb, hc⟩ := h1 v (List.mem_cons_self _ _)
      rw [List.foldl_cons]
      have hstep : normalize_step (seen, out) v
          = (pyLower (pyStrip v) :: seen, out ++ [pyStrip v]) := by
        unfold normalize_step
        rw [if_neg (by rw [ha]; exact hb), if_neg (by rw [ha]; exact hc)]
      rw [hstep, ha]
      rw [normalize_fold_fixed rest _ _ ?_ (List.pairwise_cons.mp h2).2]
      · simp
      · intro x hx
        obtain ⟨hxa, hxb, hxc⟩ := h1 x (List.mem_cons_of_mem _ hx)
        refine ⟨hxa, hxb, ?_⟩
        intro hmem
        rcases List.mem_cons.mp hmem with hmem | hmem
        · exact (List.pairwise_cons.mp h2).1 x hx hmem.symm
        · exact hxc hmem

theorem normalize_tags_idem (l : List String) :
    normalize_tags (normalize_tags l) = normalize_tags l := by
  have h := normalize_fold_fixed (normalize_tags l) [] []
    (fun x hx => ⟨(normalize_tags_mem_spec l x hx).1,
      (normalize_tags_mem_spec l x hx).2, by simp⟩)
    (normalize_tags_pairwise_key l)
  show (List.foldl normalize_step ([], []) (normalize_tags l)).2 = normalize_tags l
  rw [h]
  simp

/-! Creation and monotonicity of tag rows. -/

theorem tags_insert_or_ignore_mono (names : List String) (t : TagRow) :
    ∀ st : Store, t ∈ st.tags → t ∈ (tags_insert_or_ignore st names).tags := by
  induction names with
  | nil => exact fun _ h => h
  | cons n rest ih =>
      intro st h
      unfold tags_insert_or_ignore
      split
      · exact ih _ h
      · exact ih _ (List.mem_append_left _ h)

theorem tags_insert_or_ignore_creates (names : List String) :
    ∀ st : Store, ∀ n ∈ names,
      ∃ t ∈ (tags_insert_or_ignore st names).tags, t.name = n := by
  induction names with
  | nil => intro st n hn; simp at hn
  | cons m rest ih =>
      intro st n hn
      unfold tags_insert_or_ignore
      rcases List.mem_cons.mp hn with rfl | hn
      · split
        · next hc =>
            simp only [List.any_eq_true, decide_eq_true_eq] at hc
            obtain ⟨t, ht, hname⟩ := hc
            exact ⟨t, tags_insert_or_ignore_mono rest t _ ht, hname⟩
        · exact ⟨⟨st.next_tag_id, n⟩,
            tags_insert_or_ignore_mono rest _ _
              (List.mem_append_right _ (List.mem_singleton_self _)), rfl⟩
      · split
        · exact ih _ n hn
        · exact ih _ n hn

theorem tags_insert_or_ignore_nodup (names : List String) :
    ∀ st : Store, (st.tags.map TagRow.name).Nodup →
      ((tags_insert_or_ignore st names).tags.map TagRow.name).Nodup := by
  induction names with
  | nil => exact fun _ h => h
  | cons n rest ih =>
      intro st h
      unfold tags_insert_or_ignore
      split
      · exact ih _ h
      · next hc =>
          apply ih
          rw [List.map_append]
          simp only [List.map_cons, List.map_nil]
          refine List.nodup_append.mpr ⟨h, List.nodup_singleton _, ?_⟩
          intro a ha hb
          rw [List.mem_singleton] at hb
          subst hb
          rw [List.mem_map] at ha
          obtain ⟨t, ht, hname⟩ := ha
          exact hc (List.any_eq_true.mpr ⟨t, ht, by simp [hname]⟩)

theorem get_or_create_tag_ids_spec (st : Store) (names0 : List String) :
    ∀ n ∈ normalize_tags names0,
      ∃ t ∈ (get_or_create_tag_ids st names0).1.tags,
        t.name = n ∧ t.id ∈ (get_or_create_tag_ids st names0).2 := by
  intro n hn
  have hne : ¬(normalize_tags names0 = []) := by
    intro h
    rw [h] at hn
    simp at hn
  simp only [get_or_create_tag_ids, if_neg hne]
  obtain ⟨t, ht, hname⟩ :=
    tags_insert_or_ignore_creates (normalize_tags names0) st n hn
  refine ⟨t, ht, hname, ?_⟩
  exact List.mem_map_of_mem _ (List.mem_filter.mpr ⟨ht, by simp [hname, hn]⟩)

theorem expense_tags_insert_or_ignore_mono (ids : List Nat) (eid : Nat) (p : Nat × Nat) :
    ∀ st : Store, p ∈ st.expense_tags →
      p ∈ (expense_tags_insert_or_ignore st eid ids).expense_tags := by
  induction ids with
  | nil => exact fun _ h => h
  | cons tid rest ih =>
      intro st h
      unfold expense_tags_insert_or_ignore
      split
      · exact ih _ h
      · exact ih _ (List.mem_append_left _ h)

theorem expense_tags_insert_or_ignore_pairs (ids : List Nat) (eid : Nat) :
    ∀ st : Store, ∀ tid ∈ ids,
      (eid, tid) ∈ (expense_tags_insert_or_ignore st eid ids).expense_tags := by
  induction ids with
  | nil => intro st tid h; simp at h
  | cons t0 rest ih =>
      intro st tid htid
      unfold expense_tags_insert_or_ignore
      rcases List.mem_cons.mp htid with rfl | htid
      · split
        · next hc => exact expense_tags_insert_or_ignore_mono rest eid _ _ hc
        · exact expense_tags_insert_or_ignore_mono rest eid _ _
            (List.mem_append_right _ (List.mem_singleton_self _))
      · split
        · exact ih _ tid htid
        · exact ih _ tid htid

theorem set_expense_tags_spec (st : Store) (eid : Nat) (tags0 : List String) :
    ∀ n ∈ normalize_tags tags0,
      ∃ t ∈ (set_expense_tags st eid tags0).tags,
        t.name = n ∧ (eid, t.id) ∈ (set_expense_tags st eid tags0).expense_tags := by
  intro n hn
  have hne : ¬(normalize_tags tags0 = []) := by
    intro h
    rw [h] at hn
    simp at hn
  simp only [set_expense_tags, if_neg hne]
  have hn' : n ∈ normalize_tags (normalize_tags tags0) := by
    rw [normalize_tags_idem]
    exact hn
  obtain ⟨t, ht, hname, hid⟩ := get_or_create_tag_ids_spec
    { st with expense_tags := st.expense_tags.filter (fun p => p.1 ≠ eid) }
    (normalize_tags tags0) n hn'
  refine ⟨t, ?_, hname, ?_⟩
  · rw [expense_tags_insert_or_ignore_tags]
    exact ht
  · exact expense_tags_insert_or_ignore_pairs _ eid _ _ hid

/-! ## C1 — misc is the clamped remainder -/

/-- C1: `_recalc_misc_budget` computes
`misc = max(maxBudget - (fun+groceries+travel+home), 0)`; hence misc is
never negative, the five categories sum exactly to the budget when the
four user-set ones fit into it, and misc collapses to 0 when they
overshoot. -/
theorem misc_allocation_correct (s : SessionState)
    (_hf : 0 ≤ s.budget_fun) (_hg : 0 ≤ s.budget_groceris)
    (_ht : 0 ≤ s.budget_travel) (_hh : 0 ≤ s.budget_home_exp)
    (_hfb : s.budget_fun ≤ s.max_budget) (_hgb : s.budget_groceris ≤ s.max_budget)
    (_htb : s.budget_travel ≤ s.max_budget) (_hhb : s.budget_home_exp ≤ s.max_budget) :
    (recalc_misc_budget s).budget_misc
      = max (s.max_budget
          - (s.budget_fun + s.budget_groceris + s.budget_travel + s.budget_home_exp)) 0
    ∧ 0 ≤ (recalc_misc_budget s).budget_misc
    ∧ (s.budget_fun + s.budget_groceris + s.budget_travel + s.budget_home_exp ≤ s.max_budget →
        s.budget_fun + s.budget_groceris + s.budget_travel + s.budget_home_exp
          + (recalc_misc_budget s).budget_misc = s.max_budget)
    ∧ (s.max_budget < s.budget_fun + s.budget_groceris + s.budget_travel + s.budget_home_exp →
        (recalc_misc_budget s).budget_misc = 0) := by
  refine ⟨rfl, le_max_right _ _, ?_, ?_⟩
  · intro hle
    show s.budget_fun + s.budget_groceris + s.budget_travel + s.budget_home_exp
      + max (s.max_budget
          - (s.budget_fun + s.budget_groceris + s.budget_travel + s.budget_home_exp)) 0
      = s.max_budget
    rw [max_eq_left (by linarith)]
    ring
  · intro hgt
    show max (s.max_budget
        - (s.budget_fun + s.budget_groceris + s.budget_travel + s.budget_home_exp)) 0 = 0
    rw [max_eq_right (by linarith)]

theorem misc_allocation_correct_witness :
    (recalc_misc_budget ⟨100, 0, 0, 0, 10, 20, 30, 15, 0⟩).budget_misc = 25 := by
  have h := misc_allocation_correct ⟨100, 0, 0, 0, 10, 20, 30, 15, 0⟩
    (by norm_num) (by norm_num) (by norm_num) (by norm_num)
    (by norm_num) (by norm_num) (by norm_num) (by norm_num)
  rw [h.1]
  norm_num

/-! ## C2 — spending budget from income and savings goal -/

/-- C2: `_recalc_budget_from_goal` stores
`max((income_1+income_2) * (1 - pct/100), 0)` as the spending budget: it
is never negative for any input, and for non-negative incomes with a
goal in `[0,100]` it equals the unclamped product exactly. -/
theorem spending_budget_correct (s : SessionState) :
    (recalc_budget_from_goal s).max_budget
      = max ((s.income_1 + s.income_2) * (1 - s.saving_goal_pct / 100)) 0
    ∧ 0 ≤ (recalc_budget_from_goal s).max_budget
    ∧ (0 ≤ s.income_1 → 0 ≤ s.income_2 →
        0 ≤ s.saving_goal_pct → s.saving_goal_pct ≤ 100 →
        (recalc_budget_from_goal s).max_budget
          = (s.income_1 + s.income_2) * (1 - s.saving_goal_pct / 100)) := by
  refine ⟨rfl, le_max_right _ _, ?_⟩
  intro h1 h2 _ h4
  show max ((s.income_1 + s.income_2) * (1 - s.saving_goal_pct / 100)) 0
    = (s.income_1 + s.income_2) * (1 - s.saving_goal_pct / 100)
  exact max_eq_left (mul_nonneg (by linarith) (by linarith))

theorem spending_budget_correct_witness :
    (recalc_budget_from_goal ⟨0, 50, 50, 20, 0, 0, 0, 0, 0⟩).max_budget
      = (50 + 50) * (1 - 20 / 100) := by
  have h := spending_budget_correct ⟨0, 50, 50, 20, 0, 0, 0, 0, 0⟩
  exact h.2.2 (by norm_num) (by norm_num) (by norm_num) (by norm_num)

/-! ## C3 — insert validation rejects without mutating -/

/-- C3: the add-expense submit path rejects an item name that strips to
empty or a non-positive amount with a validation error, returning the
store untouched (no expense row, no tag rows). -/
theorem insert_validation_correct (st : Store) (item_name : String) (amount : ℚ)
    (category occurred_on : String) (tags_selected : List String)
    (custom_tags now : String)
    (h : pyStrip item_name = "" ∨ amount ≤ 0) :
    (render_add_submit st item_name amount category occurred_on
        tags_selected custom_tags now).2 = st
    ∧ ∃ msg, (render_add_submit st item_name amount category occurred_on
        tags_selected custom_tags now).1 = AddOutcome.validation_error msg := by
  unfold render_add_submit
  rcases h with h | h
  · rw [if_pos h]
    exact ⟨rfl, _, rfl⟩
  · by_cases hn : pyStrip item_name = ""
    · rw [if_pos hn]
      exact ⟨rfl, _, rfl⟩
    · rw [if_neg hn, if_pos h]
      exact ⟨rfl, _, rfl⟩

theorem insert_validation_correct_witness :
    (render_add_submit init_store "   " 5 "Fun" "2024-01-15" [] "" "t").2 = init_store
    ∧ ∃ msg, (render_add_submit init_store "   " 5 "Fun" "2024-01-15" [] "" "t").1
        = AddOutcome.validation_error msg :=
  insert_validation_correct init_store "   " 5 "Fun" "2024-01-15" [] "" "t"
    (Or.inl (by decide))

/-! ## C5 — an invalid draft allocation does not stop the save (corrected) -/

/-- C5 counterexample: a draft with spending budget 10 but `budget_fun`
set to 20 is flagged invalid by the settings view, yet clicking Save
still overwrites the stored settings — the store's singleton changes. -/
theorem settings_save_not_refused :
    settings_allocation_invalid ⟨0, 10, 0, 0, 20, 0, 0, 0, 0⟩ = true
    ∧ (render_settings_save init_store ⟨0, 10, 0, 0, 20, 0, 0, 0, 0⟩).settings
        ≠ init_store.settings := by
  constructor
  · simp only [settings_allocation_invalid, decide_eq_true_eq]
    rw [max_eq_left (by norm_num)]
    norm_num
  · intro h
    have h1 := congrArg SettingsRow.income_1_cents h
    simp only [render_settings_save, save_settings, init_store, zero_settings] at h1
    rw [show ((10 : ℚ) * 100) = ((1000 : ℤ) : ℚ) by norm_num, pyRound_intCast] at h1
    exact absurd h1 (by decide)

/-- C5 amended: when the draft allocation is invalid the settings view
surfaces the condition (the error banner predicate holds), but the Save
operation does not refuse: it always performs the full overwrite of the
stored singleton with the draft values, whether or not the draft is
invalid. -/
theorem settings_save_always_persists (st : Store) (s : SessionState) :
    (render_settings_save st s).settings =
      { income_1_cents := pyRound (s.income_1 * 100)
        income_2_cents := pyRound (s.income_2 * 100)
        saving_goal_pct := s.saving_goal_pct
        budget_fun_cents := pyRound (s.budget_fun * 100)
        budget_groceris_cents := pyRound (s.budget_groceris * 100)
        budget_travel_cents := pyRound (s.budget_travel * 100)
        budget_home_exp_cents := pyRound (s.budget_home_exp * 100)
        budget_misc_cents := pyRound (s.budget_misc * 100) } := rfl

/-! ## C9 — reset leaves the all-empty state -/

/-- C9: after `reset_all_data` the ledger is empty — `list_transactions`
returns `[]` under every filter — and the settings singleton reads back
as the all-zero defaults; the wipe happens in one transition (a single
transaction in the source), so no intermediate state is observable. -/
theorem reset_clears_all (st : Store) (search : String) (limit : Nat)
    (start_iso end_iso : Option String) (tag : Option String) :
    list_transactions (reset_all_data st) search limit start_iso end_iso tag = []
    ∧ get_settings (reset_all_data st) = zero_settings
    ∧ (reset_all_data st).expenses = []
    ∧ (reset_all_data st).tags = []
    ∧ (reset_all_data st).expense_tags = [] := by
  refine ⟨?_, rfl, rfl, rfl, rfl⟩
  simp [list_transactions, reset_all_data]

/-! ## C6 — tag uniqueness is only per-call case-insensitive (corrected) -/

/-- C6 counterexample: the `tags.name` UNIQUE constraint compares raw
bytes and `INSERT OR IGNORE` only skips exact-name matches, so inserting
`"Costco"` on one expense and `"costco"` on a later expense stores TWO
tag rows whose names are equal after case-folding. -/
theorem tag_case_duplicate_counterexample :
    ((insert_expense (insert_expense init_store "a" 1 "Fun" "2024-01-01" ["Costco"] "t1")
        "b" 1 "Fun" "2024-01-02" ["costco"] "t2").tags.map TagRow.name)
      = ["Costco", "costco"]
    ∧ pyLower "Costco" = pyLower "costco" := by
  exact ⟨by decide, by decide⟩

/-- C6 amended: within a single operation `normalize_tags` deduplicates
case-insensitively after trimming (any two distinct surviving names have
distinct case-folds), and get-or-create never duplicates an *exact* name
(it preserves `Nodup` of the stored names); in particular inserting tags
`["Costco", "costco", " COSTCO "]` on one expense stores exactly one tag
named `"Costco"` (first-seen casing).  Across separate operations,
however, uniqueness is only case-sensitive. -/
theorem tag_uniqueness_amended :
    (∀ values : List String,
        (normalize_tags values).Pairwise (fun a b => pyLower a ≠ pyLower b))
    ∧ (∀ (st : Store) (names : List String),
        (st.tags.map TagRow.name).Nodup →
        ((get_or_create_tag_ids st names).1.tags.map TagRow.name).Nodup)
    ∧ (insert_expense init_store "Milk" 1 "groceris" "2024-01-01"
        ["Costco", "costco", " COSTCO "] "t").tags.map TagRow.name = ["Costco"] := by
  refine ⟨normalize_tags_pairwise_key, ?_, by decide⟩
  intro st names h
  by_cases hne : normalize_tags names = []
  · simp only [get_or_create_tag_ids, if_pos hne]
    exact h
  · simp only [get_or_create_tag_ids, if_neg hne]
    exact tags_insert_or_ignore_nodup _ st h

theorem tag_uniqueness_amended_witness :
    ((get_or_create_tag_ids init_store ["Costco"]).1.tags.map TagRow.name).Nodup := by
  have h := tag_uniqueness_amended
  exact h.2.1 init_store ["Costco"] (by decide)

/-! ## C10 — update on a missing id: expenses untouched, tags still written -/

/-- C10: calling `update_expense` with an id matching no expense row
leaves the `expenses` table exactly as it was, but is not a no-op: every
tag named in the call ends up existing in the `tags` table (created if
absent) with an `expense_tags` row keyed to the nonexistent expense id
(SQLite foreign keys are off, so the dangling row is accepted). -/
theorem update_nonexistent_not_noop (st : Store) (eid : Nat) (item_name : String)
    (amount : ℚ) (category occurred_on : String) (tags : List String)
    (h : ∀ e ∈ st.expenses, e.id ≠ eid) :
    (update_expense st eid item_name amount category occurred_on tags).expenses
      = st.expenses
    ∧ ∀ n ∈ normalize_tags tags,
        ∃ t ∈ (update_expense st eid item_name amount category occurred_on tags).tags,
          t.name = n
          ∧ (eid, t.id) ∈
            (update_expense st eid item_name amount category occurred_on tags).expense_tags := by
  unfold update_expense
  constructor
  · rw [set_expense_tags_expenses]
    rw [List.map_congr_left (fun e he => if_neg (h e he))]
    exact List.map_id' st.expenses
  · intro n hn
    exact set_expense_tags_spec _ eid tags n hn

theorem update_nonexistent_not_noop_witness :
    (update_expense
        { expenses :=
            [ { id := 1, amount_cents := 500, currency := "USD", category := "Fun",
                note := "coffee", occurred_at := "2024-01-01T00:00:00",
                created_at := "t0" } ],
          tags := [], expense_tags := [], settings := zero_settings,
          next_expense_id := 2, next_tag_id := 1 }
        999 "x" 1 "Fun" "2024-01-02" ["newtag"]).expenses
      = [ { id := 1, amount_cents := 500, currency := "USD", category := "Fun",
            note := "coffee", occurred_at := "2024-01-01T00:00:00",
            created_at := "t0" } ]
    ∧ ∃ t ∈ (update_expense
        { expenses :=
            [ { id := 1, amount_cents := 500, currency := "USD", category := "Fun",
                note := "coffee", occurred_at := "2024-01-01T00:00:00",
                created_at := "t0" } ],
          tags := [], expense_tags := [], settings := zero_settings,
          next_expense_id := 2, next_tag_id := 1 }
        999 "x" 1 "Fun" "2024-01-02" ["newtag"]).tags,
        t.name = "newtag"
        ∧ (999, t.id) ∈ (update_expense
        { expenses :=
            [ { id := 1, amount_cents := 500, currency := "USD", category := "Fun",
                note := "coffee", occurred_at := "2024-01-01T00:00:00",
                created_at := "t0" } ],
          tags := [], expense_tags := [], settings := zero_settings,
          next_expense_id := 2, next_tag_id := 1 }
        999 "x" 1 "Fun" "2024-01-02" ["newtag"]).expense_tags := by
  have h := update_nonexistent_not_noop
    { expenses :=
        [ { id := 1, amount_cents := 500, currency := "USD", category := "Fun",
            note := "coffee", occurred_at := "2024-01-01T00:00:00",
            created_at := "t0" } ],
      tags := [], expense_tags := [], settings := zero_settings,
      next_expense_id := 2, next_tag_id := 1 }
    999 "x" 1 "Fun" "2024-01-02" ["newtag"] (by decide)
  exact ⟨h.1, h.2 "newtag" (by decide)⟩

/-! ## C4 — write conversion truncates, it does not round half up (corrected) -/

/-- C4 counterexample: the write conversion is `int(amount * 100)` —
binary64 rounding of the product, then truncation toward zero — not
round-half-up: inserting an expense whose amount is the binary64 value
of `0.005` (the fraction `5764607523034235 / 2^60`) stores `0` cents,
where round-half-up of `amount * 100` is `1`. -/
theorem amount_write_not_half_up :
    (insert_expense init_store "x" (5764607523034235 / 2 ^ 60) "Fun"
        "2024-01-01" [] "t").expenses.map Expense.amount_cents = [0]
    ∧ fl64 (1/200) = 5764607523034235 / 2 ^ 60
    ∧ roundHalfUp ((5764607523034235 / 2 ^ 60 : ℚ) * 100) = 1 := by
  refine ⟨?_, fl64_half_cent, ?_⟩
  · show [pyInt (fl64 ((5764607523034235 / 2 ^ 60 : ℚ) * 100))] = [0]
    rw [fl64_half_cent_prod]
    have half : pyInt (1/2 : ℚ) = 0 := by
      unfold pyInt
      rw [if_pos (by norm_num), Int.floor_eq_iff]
      norm_num
    rw [half]
  · unfold roundHalfUp
    rw [Int.floor_eq_iff]
    norm_num

/-- C4 amended: amounts are written with `int(amount * 100)` — the exact
product of the binary64 amount with 100 is rounded to binary64 and then
truncated toward zero, not rounded half up — and read back as the float
division `amount_cents / 100.0`.  Whenever the rounded product is
exactly the integer `n`, the inserted row stores exactly `n` cents; for
`12.34` the product rounds to exactly `1234`, so it stores `1234`,
redisplays as the binary64 value of `12.34`, and re-writing that
redisplayed amount stores `1234` again.  But the round trip is not
drift-free for whole-cent amounts in general: for `8.20` the rounded
product falls just below `820`, so `819` cents are stored and the
expense redisplays as `8.19`. -/
theorem amount_round_trip (st : Store) (q : ℚ) (n : ℤ)
    (hn : fl64 (q * 100) = (n : ℚ))
    (item_name category occurred_on now : String) (tags : List String) :
    (insert_expense st item_name q category occurred_on tags now).expenses.map
      Expense.amount_cents = st.expenses.map Expense.amount_cents ++ [n]
    ∧ pyInt (fl64 (fl64 (1234/100) * 100)) = 1234
    ∧ read_major 1234 = fl64 (1234/100)
    ∧ pyInt (fl64 (read_major 1234 * 100)) = 1234
    ∧ pyInt (fl64 (fl64 (82/10) * 100)) = 819 := by
  have h1234 : pyInt (fl64 (fl64 (1234/100) * 100)) = 1234 := by
    rw [fl64_d1234, fl64_d1234_prod,
      show ((1234 : ℚ)) = ((1234 : ℤ) : ℚ) by norm_num, pyInt_intCast]
  have hread : read_major 1234 = fl64 (1234/100) := by
    unfold read_major
    norm_num
  refine ⟨?_, h1234, hread, by rw [hread]; exact h1234, ?_⟩
  · have hw : pyInt (fl64 (q * 100)) = n := by rw [hn, pyInt_intCast]
    unfold insert_expense
    rw [set_expense_tags_expenses]
    simp [hw]
  · rw [fl64_d82, fl64_d82_prod]
    unfold pyInt
    rw [if_pos (by positivity), Int.floor_eq_iff]
    norm_num

theorem amount_round_trip_witness :
    (insert_expense init_store "Coffee" (fl64 (1234/100)) "Fun" "2024-01-15" []
        "t").expenses.map Expense.amount_cents
      = init_store.expenses.map Expense.amount_cents ++ [(1234 : ℤ)]
    ∧ pyInt (fl64 (fl64 (1234/100) * 100)) = 1234
    ∧ read_major 1234 = fl64 (1234/100)
    ∧ pyInt (fl64 (read_major 1234 * 100)) = 1234
    ∧ pyInt (fl64 (fl64 (82/10) * 100)) = 819 := by
  refine amount_round_trip init_store (fl64 (1234/100)) 1234 ?_
    "Coffee" "Fun" "2024-01-15" "t" []
  rw [fl64_d1234, fl64_d1234_prod]
  norm_num

/-! ## C7 — monthly totals: grouping, recency limit, ascending order -/

/-- The three-expense ledger of the spec's monthly-aggregation example:
$10 and $5 in January 2024, $7 in February 2024. -/
def example_store : Store :=
  { expenses :=
      [ { id := 1, amount_cents := 1000, currency := "USD", category := "Fun",
          note := "a", occurred_at := "2024-01-15T00:00:00", created_at := "t1" },
        { id := 2, amount_cents := 500, currency := "USD", category := "Fun",
          note := "b", occurred_at := "2024-01-20T00:00:00", created_at := "t2" },
        { id := 3, amount_cents := 700, currency := "USD", category := "Fun",
          note := "c", occurred_at := "2024-02-01T00:00:00", created_at := "t3" } ],
    tags := [], expense_tags := [], settings := zero_settings,
    next_expense_id := 4, next_tag_id := 1 }

theorem monthly_filter_none (e : Expense) : monthly_filter none none "" e = true := by
  simp [monthly_filter]

theorem monthly_totals_nofilter (st : Store) (limit : Nat) :
    monthly_totals st limit none none ""
      = (((List.insertionSort ym_ge
            ((st.expenses.map (fun e => substr7 e.occurred_at)).dedup)).take limit).map
          (fun k => (k, ((st.expenses.filter
              (fun e => substr7 e.occurred_at = k)).map Expense.amount_cents).sum))).reverse := by
  unfold monthly_totals
  rw [List.filter_eq_self.mpr (fun a _ => monthly_filter_none a)]

/-- C7: `monthly_totals` without filters groups by the year-month prefix
of `occurred_at`: its keys are strictly ascending in the byte order of
the `"YYYY-MM"` keys (which agrees with chronological order); at most
`limit` rows are returned; every row corresponds to a month that
actually contains an expense (absent months are not zero-filled) and
carries the exact sum of that month's cents; a month with data is
omitted only when the result is full with `limit` strictly more recent
months; and on the spec's example ledger `monthly_totals 2` returns
`[(2024-01, 1500), (2024-02, 700)]`. -/
theorem monthly_totals_correct (st : Store) (limit : Nat) :
    ((monthly_totals st limit none none "").map Prod.fst).Pairwise
      (fun a b => strLtB a b = true)
    ∧ (monthly_totals st limit none none "").length ≤ limit
    ∧ (∀ p ∈ monthly_totals st limit none none "",
        (∃ e ∈ st.expenses, substr7 e.occurred_at = p.1)
        ∧ p.2 = ((st.expenses.filter
            (fun e => substr7 e.occurred_at = p.1)).map Expense.amount_cents).sum)
    ∧ (∀ e ∈ st.expenses,
        (∃ p ∈ monthly_totals st limit none none "", p.1 = substr7 e.occurred_at)
        ∨ ((monthly_totals st limit none none "").length = limit
            ∧ ∀ p ∈ monthly_totals st limit none none "",
              strLtB (substr7 e.occurred_at) p.1 = true))
    ∧ monthly_totals example_store 2 none none ""
        = [("2024-01", 1500), ("2024-02", 700)] := by
  have hr := monthly_totals_nofilter st limit
  set D := (st.expenses.map (fun e => substr7 e.occurred_at)).dedup with hD
  set S := List.insertionSort ym_ge D with hS
  have hS_pair : S.Pairwise ym_ge := List.sorted_insertionSort ym_ge D
  have hS_perm : S.Perm D := List.perm_insertionSort ym_ge D
  have hS_nodup : S.Nodup := (hS_perm.nodup_iff).mpr (List.nodup_dedup _)
  have hS_strict : S.Pairwise (fun a b => strLtB b a = true) :=
    (hS_pair.and hS_nodup).imp (fun hab => strLtB_of_le_of_ne hab.1 (Ne.symm hab.2))
  have hkeys : (monthly_totals st limit none none "").map Prod.fst
      = (S.take limit).reverse := by
    rw [hr, List.map_reverse, List.map_map]
    exact congrArg List.reverse (List.map_id'' (fun _ => rfl) _)
  have hsplit : (S.take limit ++ S.drop limit).Pairwise
      (fun a b => strLtB b a = true) := by
    rw [List.take_append_drop]
    exact hS_strict
  refine ⟨?_, ?_, ?_, ?_, by decide⟩
  · rw [hkeys, List.pairwise_reverse]
    exact hS_strict.sublist (List.take_sublist _ _)
  · rw [hr, List.length_reverse, List.length_map]
    exact List.length_take_le _ _
  · intro p hp
    rw [hr, List.mem_reverse, List.mem_map] at hp
    obtain ⟨k, hk, hfk⟩ := hp
    have hkD : k ∈ D := hS_perm.mem_iff.mp (List.mem_of_mem_take hk)
    rw [hD, List.mem_dedup, List.mem_map] at hkD
    obtain ⟨e, he, hek⟩ := hkD
    subst hfk
    exact ⟨⟨e, he, hek⟩, rfl⟩
  · intro e he
    have hkS : substr7 e.occurred_at ∈ S := by
      apply hS_perm.mem_iff.mpr
      rw [hD, List.mem_dedup, List.mem_map]
      exact ⟨e, he, rfl⟩
    rw [← List.take_append_drop limit S, List.mem_append] at hkS
    rcases hkS with hk | hk
    · left
      exact ⟨_, by
        rw [hr, List.mem_reverse]
        exact List.mem_map_of_mem _ hk, rfl⟩
    · right
      constructor
      · rw [hr, List.length_reverse, List.length_map, List.length_take]
        have hlt : limit < S.length := by
          by_contra hcon
          push_neg at hcon
          rw [List.drop_eq_nil_of_le hcon] at hk
          simp at hk
        omega
      · intro p hp
        rw [hr, List.mem_reverse, List.mem_map] at hp
        obtain ⟨k', hk', hfk⟩ := hp
        subst hfk
        exact (List.pairwise_append.mp hsplit).2.2 k' hk' _ hk

theorem monthly_totals_correct_witness :
    (∃ e ∈ example_store.expenses, substr7 e.occurred_at = "2024-01")
    ∧ (1500 : ℤ) = ((example_store.expenses.filter
        (fun e => substr7 e.occurred_at = "2024-01")).map Expense.amount_cents).sum := by
  have h := monthly_totals_correct example_store 2
  have hc := h.2.2.1 ("2024-01", 1500) (by decide)
  exact ⟨hc.1, hc.2⟩

/-! ## C8 — savings rate is empty without income -/

/-- C8: `monthly_savings_rate` returns the empty sequence whenever the
configured total income is zero or negative, whatever the ledger holds. -/
theorem savings_rate_empty_on_no_income (st : Store) (limit : Nat)
    (h : st.settings.income_1_cents + st.settings.income_2_cents ≤ 0) :
    monthly_savings_rate st limit = [] := by
  unfold monthly_savings_rate
  rw [if_pos h]

theorem savings_rate_empty_on_no_income_witness :
    monthly_savings_rate
      { expenses :=
          [ { id := 1, amount_cents := 1000, currency := "USD", category := "Fun",
              note := "a", occurred_at := "2024-01-15T00:00:00", created_at := "t1" } ],
        tags := [], expense_tags := [], settings := zero_settings,
        next_expense_id := 2, next_tag_id := 1 } 12 = [] :=
  savings_rate_empty_on_no_income _ 12 (by decide)

end MoneyPal
